import Mathlib

/-!
Verification development for the simpletcpunixrelay program, a bidirectional
byte-stream relay between TCP and Unix-domain sockets.

The Go source is shallowly embedded below:

* Go `error` values are modelled as `Option GoError` with `GoError := String`
  (`none` is Go's `nil` error).
* Connections are opaque identifiers (`Nat`).
* Pure functions (`isUnixSocket`, `strings.Contains`) become Lean functions.
* `io.Copy` over a connection becomes a function from the list of chunks the
  reader yields (followed by end-of-stream) to the list of bytes written.
* The concurrent parts (the session's accept loop, `handleError`, the
  per-connection `handleConn` of `main.go` with its context-cancel closers and
  local WaitGroup) become explicit state machines: a state record, a command
  alphabet (one command per atomic action a goroutine can take), and a guarded
  step function.  An execution is an arbitrary command list, so quantifying
  over command lists quantifies over all interleavings; a command whose guard
  is false leaves the state unchanged (the goroutine is blocked).
-/

namespace SimpleTcpUnixRelay

/-- Go `error` messages. -/
abbrev GoError := String

/-- Opaque connection identifiers standing for `net.Conn` values. -/
abbrev Conn := Nat

/-! ### Address classifier (`isUnixSocket`, both `src/main.go:40` and
`src/unnamed/part_001:39`) -/

/-- Does `s` start with `sub`?  Models the prefix test underlying Go's
substring search. -/
def startsWith : List Char → List Char → Bool
  | _, [] => true
  | [], _ :: _ => false
  | a :: s, b :: t => a == b && startsWith s t

/-- Go `strings.Contains(s, sub)`: `sub` occurs as a contiguous substring of
`s` (the empty substring occurs in every string). -/
def goStringsContains : List Char → List Char → Bool
  | [], sub => sub.isEmpty
  | a :: t, sub => startsWith (a :: t) sub || goStringsContains t sub

/-- Embeds `isUnixSocket` from the source: `strings.Contains(addr, "/")`. -/
def isUnixSocket (addr : List Char) : Bool :=
  goStringsContains addr ['/']

theorem goStringsContains_slash_eq (s : List Char) :
    goStringsContains s ['/'] = s.contains '/' := by
  induction s with
  | nil => rfl
  | cons a t ih =>
    simp only [goStringsContains, startsWith, Bool.and_true, ih,
      List.contains_cons]
    by_cases h : a = '/'
    · subst h; simp
    · have h1 : (a == '/') = false := beq_eq_false_iff_ne.mpr h
      have h2 : ('/' == a) = false := beq_eq_false_iff_ne.mpr (Ne.symm h)
      simp [h1, h2]

/-- The classifier tests exactly for the presence of the `'/'` character. -/
theorem isUnixSocket_eq_contains (s : List Char) :
    isUnixSocket s = s.contains '/' := by
  simpa [isUnixSocket] using goStringsContains_slash_eq s

/-! ### Byte splice (`io.Copy` inside `handleConn`,
`src/main.go:140`–`160` and `src/unnamed/part_001:126`–`145`) -/

/-- One direction of the splice.  The reader side of a connection yields a
sequence of chunks and then end-of-stream; `io.Copy` loops, appending each
chunk it reads to the bytes written to the destination, and returns when the
read reports EOF.  `dst` is the accumulator of bytes written so far. -/
def ioCopy (dst : List Nat) : List (List Nat) → List Nat
  | [] => dst
  | c :: rest => ioCopy (dst ++ c) rest

/-- What the receiving peer observes on its connection. -/
inductive StreamEvent where
  | byte (b : Nat)
  | eof
deriving DecidableEq

/-- The receiver's observation of one spliced direction: every byte written
by `io.Copy`, in order, and only then end-of-stream (the pair's connections
are closed only once the copy task has finished). -/
def receiverEvents (chunks : List (List Nat)) : List StreamEvent :=
  (ioCopy [] chunks).map StreamEvent.byte ++ [StreamEvent.eof]

theorem ioCopy_eq_append_join (dst : List Nat) (chunks : List (List Nat)) :
    ioCopy dst chunks = dst ++ chunks.flatten := by
  induction chunks generalizing dst with
  | nil => simp [ioCopy]
  | cons c rest ih => simp [ioCopy, ih]

/-! ### The session's terminal error (`proxy.handleError`,
`src/main.go:73`–`83` and `src/unnamed/part_001:72`–`82`) -/

/-- Embeds `proxy.handleError` (the body runs under `p.mu`).  Takes the
current `p.err` and the argument `err`; returns the new `p.err` and the log
lines emitted.  The source reads:

    if p.err == nil {
        log.Printf("ERROR: ignored error: %v", err)
        return
    }
    p.err = err
-/
def handleError (perr : Option GoError) (err : Option GoError) :
    Option GoError × List GoError :=
  if perr = none then
    (perr, ["ERROR: ignored error: " ++ err.getD "<nil>"])
  else
    (err, [])

theorem handleError_from_nil (err : Option GoError) :
    (handleError none err).fst = none := by
  simp [handleError]

theorem handleError_overwrites (e1 : GoError) (err : Option GoError) :
    (handleError (some e1) err).fst = err := by
  simp [handleError]

/-! ### Session state machine (`proxy.run` / `proxy.accept`,
`src/main.go:88`–`110` and `src/unnamed/part_001:87`–`109`)

The session's mutable state: `p.err`, the accept loop's status, the session
WaitGroup `p.wg` (one count for the accept goroutine, added in `run`, plus one
count per accepted connection, added in `accept` before `go p.handleConn`),
and whether `run`'s final `p.wg.Wait()` has passed.  Commands model the atomic
actions of the goroutines involved; a command whose guard fails is a blocked
goroutine and leaves the state unchanged. -/

/-- Mutable state shared by the session's goroutines. -/
structure Session where
  /-- `p.err`, guarded by `p.mu`. -/
  perr : Option GoError
  /-- `some e` once the accept loop has returned the (wrapped) error `e`. -/
  acceptReturned : Option GoError
  /-- Whether `accept`'s `defer p.wg.Done()` has run. -/
  acceptDone : Bool
  /-- Whether `go p.handleError(p.accept(ctx))` has applied `handleError`. -/
  handleErrorRan : Bool
  /-- Number of accepted connections: `p.wg.Add(1); go p.handleConn(...)`. -/
  spawned : Nat
  /-- Number of `handleConn` goroutines whose `defer p.wg.Done()` has run. -/
  done : Nat
  /-- `some v` once `run`'s `p.wg.Wait()` has passed and `run` returned `v`. -/
  runReturned : Option (Option GoError)
deriving DecidableEq

/-- The session state at the start of `proxy.run`. -/
def sessInit : Session :=
  { perr := none, acceptReturned := none, acceptDone := false
    handleErrorRan := false, spawned := 0, done := 0, runReturned := none }

/-- The wrapping in `accept`: `fmt.Errorf("could not listener.Accept(): %w", err)`. -/
def wrapAcceptErr (e : GoError) : GoError :=
  "could not listener.Accept(): " ++ e

/-- The current counter of the session WaitGroup `p.wg`. -/
def sessWgCount (s : Session) : Nat :=
  (if s.acceptDone then 0 else 1) + (s.spawned - s.done)

/-- Atomic actions of the session's goroutines. -/
inductive SessCmd where
  /-- `listener.Accept()` succeeds: `p.wg.Add(1); go p.handleConn(...)`. -/
  | acceptConn
  /-- `listener.Accept()` fails with `e`: `accept` returns the wrapped error
  and its deferred `p.wg.Done()` runs. -/
  | acceptFail (e : GoError)
  /-- Some `handleConn` goroutine finishes: its deferred `p.wg.Done()` runs. -/
  | pairDone
  /-- The goroutine `go p.handleError(p.accept(ctx))` applies `handleError`
  to the value `accept` returned. -/
  | runHandleError
  /-- `run`'s `p.wg.Wait()` passes (counter is zero) and `run` returns `p.err`. -/
  | runReturn

/-- Guarded small step of the session.  A disabled command is a no-op. -/
def sessStep (s : Session) (c : SessCmd) : Session :=
  match c with
  | .acceptConn =>
      if s.acceptReturned = none then { s with spawned := s.spawned + 1 } else s
  | .acceptFail e =>
      if s.acceptReturned = none then
        { s with acceptReturned := some (wrapAcceptErr e), acceptDone := true }
      else s
  | .pairDone =>
      if s.done < s.spawned then { s with done := s.done + 1 } else s
  | .runHandleError =>
      match s.acceptReturned with
      | some e =>
          if s.handleErrorRan = false then
            { s with perr := (handleError s.perr (some e)).fst
                     handleErrorRan := true }
          else s
      | none => s
  | .runReturn =>
      if sessWgCount s = 0 ∧ s.runReturned = none then
        { s with runReturned := some s.perr }
      else s

/-- Execution of the session under an arbitrary interleaving. -/
def sessRun (cmds : List SessCmd) : Session :=
  cmds.foldl sessStep sessInit

/-- Invariant of every reachable session state: `p.err` is never set (the
inverted guard in `handleError` discards the error when `p.err` is still
nil); the WaitGroup bookkeeping is consistent; and once `run` has returned,
its result is nil and every spawned `handleConn` had completed. -/
def sessInv (s : Session) : Prop :=
  s.perr = none ∧
  s.done ≤ s.spawned ∧
  s.acceptDone = s.acceptReturned.isSome ∧
  (s.runReturned = none ∨ s.runReturned = some none) ∧
  (s.runReturned ≠ none → s.done = s.spawned ∧ s.acceptDone = true)

theorem sessInv_init : sessInv sessInit := by
  simp [sessInv, sessInit]

theorem sessInv_step (s : Session) (c : SessCmd) (h : sessInv s) :
    sessInv (sessStep s c) := by
  obtain ⟨h1, h2, h3, h4, h5⟩ := h
  cases c with
  | acceptConn =>
      by_cases hg : s.acceptReturned = none
      · have hd : s.acceptDone = false := by rw [h3, hg]; rfl
        have hr : s.runReturned = none := by
          by_contra hne
          exact absurd (h5 hne).2 (by simp [hd])
        simp only [sessStep]
        rw [if_pos hg]
        exact ⟨h1, by dsimp only; omega, h3, Or.inl hr,
          fun hne => absurd hr (by simpa using hne)⟩
      · simp only [sessStep]
        rw [if_neg hg]
        exact ⟨h1, h2, h3, h4, h5⟩
  | acceptFail e =>
      by_cases hg : s.acceptReturned = none
      · have hd : s.acceptDone = false := by rw [h3, hg]; rfl
        have hr : s.runReturned = none := by
          by_contra hne
          exact absurd (h5 hne).2 (by simp [hd])
        simp only [sessStep]
        rw [if_pos hg]
        exact ⟨h1, h2, rfl, Or.inl hr,
          fun hne => absurd hr (by simpa using hne)⟩
      · simp only [sessStep]
        rw [if_neg hg]
        exact ⟨h1, h2, h3, h4, h5⟩
  | pairDone =>
      by_cases hg : s.done < s.spawned
      · have hr : s.runReturned = none := by
          by_contra hne
          have := (h5 hne).1
          omega
        simp only [sessStep]
        rw [if_pos hg]
        exact ⟨h1, by dsimp only; omega, h3, Or.inl hr,
          fun hne => absurd hr (by simpa using hne)⟩
      · simp only [sessStep]
        rw [if_neg hg]
        exact ⟨h1, h2, h3, h4, h5⟩
  | runHandleError =>
      cases hg : s.acceptReturned with
      | none =>
          simp only [sessStep]
          rw [hg]
          exact ⟨h1, h2, h3, h4, h5⟩
      | some e =>
          by_cases hran : s.handleErrorRan = false
          · simp only [sessStep]
            rw [hg]
            simp only [if_pos hran]
            exact ⟨by simp [h1, handleError], h2, by rw [h3, hg], h4, h5⟩
          · simp only [sessStep]
            rw [hg]
            simp only [if_neg hran]
            exact ⟨h1, h2, h3, h4, h5⟩
  | runReturn =>
      by_cases hg : sessWgCount s = 0 ∧ s.runReturned = none
      · have hd : s.acceptDone = true := by
          rcases hb : s.acceptDone with _ | _
          · exact absurd hg.1 (by simp [sessWgCount, hb])
          · rfl
        have heq : s.done = s.spawned := by
          have hw := hg.1
          rw [sessWgCount, hd, if_pos rfl] at hw
          omega
        simp only [sessStep]
        rw [if_pos hg]
        exact ⟨h1, h2, h3, Or.inr (by rw [h1]), fun _ => ⟨heq, hd⟩⟩
      · simp only [sessStep]
        rw [if_neg hg]
        exact ⟨h1, h2, h3, h4, h5⟩

theorem sessInv_foldl (cmds : List SessCmd) (s : Session) (h : sessInv s) :
    sessInv (cmds.foldl sessStep s) := by
  induction cmds generalizing s with
  | nil => simpa using h
  | cons c rest ih => exact ih (sessStep s c) (sessInv_step s c h)

theorem sessInv_run (cmds : List SessCmd) : sessInv (sessRun cmds) :=
  sessInv_foldl cmds sessInit sessInv_init

/-! ### Connection-pair state machine (`proxy.handleConn`,
`src/main.go:116`–`161`)

One accepted inbound connection `in` and its `handleConn` goroutine.  The
goroutines involved: the main flow of `handleConn` (dial, then `wg.Wait()`),
the two context-cancel closer goroutines (`<-ctx.Done(); in.Close()` and
`<-ctx.Done(); out.Close()`), and the two copy goroutines.  The local
WaitGroup receives `wg.Add(1)` for each closer goroutine and `wg.Add(2)` for
the copy goroutines, but only the copy goroutines ever call `wg.Done()`. -/

/-- Status of the `p.connector()` call. -/
inductive DialStatus where
  | pending
  | ok
  | failed
deriving DecidableEq

/-- State of one pair's `handleConn` invocation.  `serr` is the session's
`p.err`, carried along to record that `handleConn` never touches it. -/
structure PairState where
  /-- The session's `p.err`; no statement of `handleConn` assigns it. -/
  serr : Option GoError
  /-- Result of `out, err := p.connector()`. -/
  dial : DialStatus
  /-- Whether the pair's context (from `context.WithCancel`) is done. -/
  cancelled : Bool
  /-- Whether `in.Close()` has run. -/
  inClosed : Bool
  /-- Whether `out.Close()` has run. -/
  outClosed : Bool
  /-- Whether the `io.Copy(out, in)` goroutine has finished. -/
  copyToDstDone : Bool
  /-- Whether the `io.Copy(in, out)` goroutine has finished. -/
  copyToSrcDone : Bool
  /-- Number of `wg.Done()` calls on the pair-local WaitGroup. -/
  wgDones : Nat
  /-- Whether `handleConn` has returned. -/
  returned : Bool
deriving DecidableEq

/-- Pair state on entry to `handleConn`, before the `p.connector()` call;
`E` is the session's current `p.err`. -/
def pairInit (E : Option GoError) : PairState :=
  { serr := E, dial := DialStatus.pending, cancelled := false
    inClosed := false, outClosed := false, copyToDstDone := false
    copyToSrcDone := false, wgDones := 0, returned := false }

/-- Total `wg.Add` count on the pair-local WaitGroup: `wg.Add(1)` for the
`in`-closer goroutine before the dial, and on a successful dial `wg.Add(1)`
for the `out`-closer plus `wg.Add(2)` for the two copy goroutines. -/
def pairWgAdds (s : PairState) : Nat :=
  if s.dial = DialStatus.ok then 4 else 1

/-- Atomic actions of the goroutines of one pair. -/
inductive PairCmd where
  /-- `p.connector()` succeeds: the `out`-closer and both copy goroutines are
  spawned and the main flow reaches `wg.Wait()`. -/
  | dialOk
  /-- `p.connector()` fails: `logError(...)` and `return`; the deferred
  `cancel()` runs. -/
  | dialFail
  /-- `io.Copy(out, in)` finishes (EOF or error): `wg.Done()` and the
  deferred `cancel()` run. -/
  | copyToDstFinish
  /-- `io.Copy(in, out)` finishes (EOF or error): `wg.Done()` and the
  deferred `cancel()` run. -/
  | copyToSrcFinish
  /-- The `in`-closer goroutine unblocks from `<-ctx.Done()` and closes `in`. -/
  | closerInFire
  /-- The `out`-closer goroutine unblocks from `<-ctx.Done()` and closes `out`. -/
  | closerOutFire
  /-- `wg.Wait()` passes (the local counter is zero) and `handleConn` returns. -/
  | mainReturn

/-- Guarded small step of one pair.  A disabled command is a no-op. -/
def pairStep (s : PairState) (c : PairCmd) : PairState :=
  match c with
  | .dialOk =>
      if s.dial = DialStatus.pending then { s with dial := DialStatus.ok }
      else s
  | .dialFail =>
      if s.dial = DialStatus.pending then
        { s with dial := DialStatus.failed, cancelled := true
                 returned := true }
      else s
  | .copyToDstFinish =>
      if s.dial = DialStatus.ok ∧ s.copyToDstDone = false then
        { s with copyToDstDone := true, cancelled := true
                 wgDones := s.wgDones + 1 }
      else s
  | .copyToSrcFinish =>
      if s.dial = DialStatus.ok ∧ s.copyToSrcDone = false then
        { s with copyToSrcDone := true, cancelled := true
                 wgDones := s.wgDones + 1 }
      else s
  | .closerInFire =>
      if s.cancelled = true ∧ s.inClosed = false then
        { s with inClosed := true }
      else s
  | .closerOutFire =>
      if s.dial = DialStatus.ok ∧ s.cancelled = true ∧ s.outClosed = false then
        { s with outClosed := true }
      else s
  | .mainReturn =>
      if s.dial = DialStatus.ok ∧ s.returned = false ∧
          pairWgAdds s - s.wgDones = 0 then
        { s with returned := true }
      else s

/-- Execution of one pair under an arbitrary interleaving. -/
def pairRun (E : Option GoError) (cmds : List PairCmd) : PairState :=
  cmds.foldl pairStep (pairInit E)

/-- Invariant of every reachable pair state: the session error is untouched;
the local `wg.Done` count is exactly the number of finished copy goroutines
(hence at most 2, while 4 were added on the spliced path); `handleConn` can
only have returned on the dial-failure path; and on that path the context is
cancelled, so the `in`-closer is enabled until `in` is closed. -/
def pairInv (E : Option GoError) (s : PairState) : Prop :=
  s.serr = E ∧
  s.wgDones = (cond s.copyToDstDone 1 0) + (cond s.copyToSrcDone 1 0) ∧
  (s.returned = true → s.dial = DialStatus.failed) ∧
  (s.dial = DialStatus.failed → s.cancelled = true)

theorem pairInv_init (E : Option GoError) : pairInv E (pairInit E) := by
  simp [pairInv, pairInit]

theorem pairInv_step (E : Option GoError) (s : PairState) (c : PairCmd)
    (h : pairInv E s) : pairInv E (pairStep s c) := by
  obtain ⟨h1, h2, h3, h4⟩ := h
  cases c with
  | dialOk =>
      by_cases hg : s.dial = DialStatus.pending
      · have hret : s.returned = false := by
          rcases hb : s.returned with _ | _
          · rfl
          · exact absurd (h3 hb) (by rw [hg]; intro hc; exact absurd hc (by decide))
        simp only [pairStep]
        rw [if_pos hg]
        refine ⟨h1, h2, ?_, ?_⟩
        · intro hb
          exact absurd (show s.returned = true from hb)
            (by rw [hret]; exact Bool.false_ne_true)
        · intro hc
          exact absurd (show DialStatus.ok = DialStatus.failed from hc)
            (by decide)
      · simp only [pairStep]
        rw [if_neg hg]
        exact ⟨h1, h2, h3, h4⟩
  | dialFail =>
      by_cases hg : s.dial = DialStatus.pending
      · simp only [pairStep]
        rw [if_pos hg]
        exact ⟨h1, h2, fun _ => rfl, fun _ => rfl⟩
      · simp only [pairStep]
        rw [if_neg hg]
        exact ⟨h1, h2, h3, h4⟩
  | copyToDstFinish =>
      by_cases hg : s.dial = DialStatus.ok ∧ s.copyToDstDone = false
      · have hret : s.returned = false := by
          rcases hb : s.returned with _ | _
          · rfl
          · exact absurd (h3 hb) (by rw [hg.1]; decide)
        simp only [pairStep]
        rw [if_pos hg]
        refine ⟨h1, ?_, ?_, fun _ => rfl⟩
        · show s.wgDones + 1 = _
          rw [h2, hg.2]
          cases s.copyToSrcDone <;> simp
        · intro hb
          exact absurd (show s.returned = true from hb)
            (by rw [hret]; exact Bool.false_ne_true)
      · simp only [pairStep]
        rw [if_neg hg]
        exact ⟨h1, h2, h3, h4⟩
  | copyToSrcFinish =>
      by_cases hg : s.dial = DialStatus.ok ∧ s.copyToSrcDone = false
      · have hret : s.returned = false := by
          rcases hb : s.returned with _ | _
          · rfl
          · exact absurd (h3 hb) (by rw [hg.1]; decide)
        simp only [pairStep]
        rw [if_pos hg]
        refine ⟨h1, ?_, ?_, fun _ => rfl⟩
        · show s.wgDones + 1 = _
          rw [h2, hg.2]
          cases s.copyToDstDone <;> simp
        · intro hb
          exact absurd (show s.returned = true from hb)
            (by rw [hret]; exact Bool.false_ne_true)
      · simp only [pairStep]
        rw [if_neg hg]
        exact ⟨h1, h2, h3, h4⟩
  | closerInFire =>
      by_cases hg : s.cancelled = true ∧ s.inClosed = false
      · simp only [pairStep]
        rw [if_pos hg]
        exact ⟨h1, h2, h3, h4⟩
      · simp only [pairStep]
        rw [if_neg hg]
        exact ⟨h1, h2, h3, h4⟩
  | closerOutFire =>
      by_cases hg : s.dial = DialStatus.ok ∧ s.cancelled = true ∧
          s.outClosed = false
      · simp only [pairStep]
        rw [if_pos hg]
        exact ⟨h1, h2, h3, h4⟩
      · simp only [pairStep]
        rw [if_neg hg]
        exact ⟨h1, h2, h3, h4⟩
  | mainReturn =>
      by_cases hg : s.dial = DialStatus.ok ∧ s.returned = false ∧
          pairWgAdds s - s.wgDones = 0
      · exfalso
        have hw : s.wgDones ≤ 2 := by
          rw [h2]
          cases s.copyToDstDone <;> cases s.copyToSrcDone <;> simp
        have hadds : pairWgAdds s = 4 := by
          rw [pairWgAdds, if_pos hg.1]
        have := hg.2.2
        omega
      · simp only [pairStep]
        rw [if_neg hg]
        exact ⟨h1, h2, h3, h4⟩

theorem pairInv_foldl (E : Option GoError) (cmds : List PairCmd)
    (s : PairState) (h : pairInv E s) :
    pairInv E (cmds.foldl pairStep s) := by
  induction cmds generalizing s with
  | nil => simpa using h
  | cons c rest ih => exact ih (pairStep s c) (pairInv_step E s c h)

theorem pairInv_run (E : Option GoError) (cmds : List PairCmd) :
    pairInv E (pairRun E cmds) :=
  pairInv_foldl E cmds (pairInit E) (pairInv_init E)

/-- A pair that was successfully spliced and whose `handleConn` has returned:
never happens in `main.go`, since `wg.Wait()` waits for 4 `Done`s of which at
most 2 ever arrive. -/
def splicedAndReturned (s : PairState) : Bool :=
  (s.dial == DialStatus.ok) && s.returned

/-- A dial-failed pair whose context is not cancelled while `in` is still
open: never happens, so the `in`-closer goroutine is always enabled until
`in` is closed. -/
def dialFailCloserPending (s : PairState) : Bool :=
  (s.dial == DialStatus.failed) && !s.inClosed && !s.cancelled

/-! ### The accept loop as a function of its schedule

`proxy.accept` (`src/main.go:99`–`110`): the loop's control flow depends only
on the sequence of `listener.Accept()` results; each accepted connection is
handed to an asynchronous `handleConn`, whose dial outcome (`dialOf c`)
cannot influence the loop. -/

/-- Runs the accept loop over the sequence of `listener.Accept()` results.
Returns the wrapped terminal error of the loop (`none` if the schedule is
exhausted, i.e. the loop is still blocked in `Accept`) and, per accepted
connection, the connection and whether its dial succeeded. -/
def relayAccept (dialOf : Conn → Except GoError Conn) :
    List (Except GoError Conn) → Option GoError × List (Conn × Bool)
  | [] => (none, [])
  | .error e :: _ => (some (wrapAcceptErr e), [])
  | .ok c :: rest =>
      let spliced := match dialOf c with
        | .ok _ => true
        | .error _ => false
      let r := relayAccept dialOf rest
      (r.fst, (c, spliced) :: r.snd)

theorem relayAccept_fst_indep (d1 d2 : Conn → Except GoError Conn)
    (sched : List (Except GoError Conn)) :
    (relayAccept d1 sched).fst = (relayAccept d2 sched).fst := by
  induction sched with
  | nil => rfl
  | cons x rest ih => cases x <;> simp [relayAccept, ih]

theorem relayAccept_conns_indep (d1 d2 : Conn → Except GoError Conn)
    (sched : List (Except GoError Conn)) :
    (relayAccept d1 sched).snd.map Prod.fst
      = (relayAccept d2 sched).snd.map Prod.fst := by
  induction sched with
  | nil => rfl
  | cons x rest ih => cases x <;> simp [relayAccept, ih]

/-! ### Startup (`run`, `src/main.go:163`–`171` and
`src/unnamed/part_001:148`–`152`) -/

/-- Outcome of the top-level `run`.  `log.Fatalf` prints its message and
calls `os.Exit(1)`. -/
inductive StartResult where
  | fatalExit (code : Nat) (logged : GoError)
  | proxyRan (terminal : Option GoError)
deriving DecidableEq

/-- Embeds the startup path of `run`: if `getSourceListener` fails, the
program exits via `log.Fatalf` (status 1) and the proxy session is never
started (second component `none`); otherwise the session runs under some
interleaving `cmds` and `run` returns its result. -/
def runMain (listenRes : Except GoError Conn) (cmds : List SessCmd) :
    StartResult × Option Session :=
  match listenRes with
  | .error e =>
      (StartResult.fatalExit 1 ("could not listen on the source: " ++ e), none)
  | .ok _ =>
      (StartResult.proxyRan ((sessRun cmds).runReturned.getD none),
        some (sessRun cmds))

/-! ### Socket-file cleanup (`run`, `src/unnamed/part_001:148`–`161`)

In that revision `run` registers, in order, a deferred cleanup closure (which
removes the source socket file when the source address is a unix-socket path,
logging on failure) and then a deferred `listener.Close()`.  Deferred calls
run in reverse order when `run` returns. -/

/-- Teardown effects performed when `run` returns, in execution order. -/
inductive CleanupAction where
  | closeListener
  | removeFile (addr : List Char)
  | logRemoveFailure (addr : List Char)
deriving DecidableEq

/-- The sequence of teardown actions of `run` (revision with cleanup), given
the source address and the result of `os.Remove`. -/
def runCleanup (sourceAddr : List Char) (removeRes : Except GoError Unit) :
    List CleanupAction :=
  CleanupAction.closeListener ::
    (if isUnixSocket sourceAddr = true then
      CleanupAction.removeFile sourceAddr ::
        (match removeRes with
         | .error _ => [CleanupAction.logRemoveFailure sourceAddr]
         | .ok _ => [])
    else [])

/-! ## Claim theorems -/

/-- C1: the claim states that when `listener.Accept()` fails, `proxy.run`
returns a non-nil error wrapping the Accept error.  The code does the
opposite: `handleError`'s guard is inverted (`if p.err == nil` logs and
returns instead of recording), so `p.err` stays nil on every execution and
`run` returns nil; the last conjunct evaluates the concrete failing schedule
in which Accept fails and `run` returns nil. -/
theorem accept_error_never_surfaced :
    (∀ cmds : List SessCmd,
        (sessRun cmds).perr = none
      ∧ (sessRun cmds).runReturned.getD none = none)
  ∧ (sessRun [SessCmd.acceptFail "use of closed network connection",
      SessCmd.runHandleError, SessCmd.runReturn]).runReturned = some none := by
  constructor
  · intro cmds
    obtain ⟨h1, _, _, h4, _⟩ := sessInv_run cmds
    refine ⟨h1, ?_⟩
    rcases h4 with h | h <;> simp [h]
  · decide

/-- C2: a dial failure is per-pair recoverable.  On every execution of a
pair, the session's terminal error is never touched by `handleConn`, and
whenever the dial has failed the context is cancelled so the `in`-closer is
enabled until `in` is closed; the canonical dial-failure execution closes the
inbound connection, returns from `handleConn`, and never opens an outbound
connection; and the accept loop's terminal error and sequence of accepted
connections do not depend on the dial outcomes at all. -/
theorem dial_failure_per_pair_recoverable :
    (∀ (E : Option GoError) (cmds : List PairCmd),
        (pairRun E cmds).serr = E
      ∧ dialFailCloserPending (pairRun E cmds) = false)
  ∧ (∀ E : Option GoError,
        (pairRun E [PairCmd.dialFail, PairCmd.closerInFire]).inClosed = true
      ∧ (pairRun E [PairCmd.dialFail, PairCmd.closerInFire]).returned = true
      ∧ (pairRun E [PairCmd.dialFail, PairCmd.closerInFire]).serr = E
      ∧ (pairRun E [PairCmd.dialFail, PairCmd.closerInFire]).outClosed
          = false)
  ∧ (∀ (d1 d2 : Conn → Except GoError Conn)
        (sched : List (Except GoError Conn)),
        (relayAccept d1 sched).fst = (relayAccept d2 sched).fst
      ∧ (relayAccept d1 sched).snd.map Prod.fst
          = (relayAccept d2 sched).snd.map Prod.fst) := by
  refine ⟨?_, ?_, ?_⟩
  · intro E cmds
    obtain ⟨h1, _, _, h4⟩ := pairInv_run E cmds
    refine ⟨h1, ?_⟩
    by_cases hd : (pairRun E cmds).dial = DialStatus.failed
    · have hc := h4 hd
      simp [dialFailCloserPending, hc]
    · simp [dialFailCloserPending, beq_iff_eq, hd]
  · intro E
    exact ⟨rfl, rfl, rfl, rfl⟩
  · intro d1 d2 sched
    exact ⟨relayAccept_fst_indep d1 d2 sched,
      relayAccept_conns_indep d1 d2 sched⟩

/-- C3: one direction of the splice delivers exactly the bytes the sending
side wrote — same order, no truncation, no duplication — and the receiving
side observes end-of-stream only after all of them. -/
theorem splice_delivers_exact_bytes :
    ∀ chunks : List (List Nat),
      ioCopy [] chunks = chunks.flatten
      ∧ receiverEvents chunks
          = chunks.flatten.map StreamEvent.byte ++ [StreamEvent.eof] := by
  intro chunks
  have h : ioCopy [] chunks = chunks.flatten := by
    simpa using ioCopy_eq_append_join [] chunks
  exact ⟨h, by simp [receiverEvents, h]⟩

/-- C4: the claim states that `handleConn` returns once both copy tasks have
finished and both connections are closed.  In `main.go` the two closer
goroutines are registered with `wg.Add(1)` but never call `wg.Done()`, so on
the spliced path `wg.Wait()` waits for 4 `Done`s of which at most 2 arrive:
no execution has a successfully dialed pair whose `handleConn` has returned.
The concrete execution in the second conjunct finishes both copy tasks and
closes both connections, yet the final `mainReturn` step is disabled and
`handleConn` has not returned. -/
theorem spliced_handleConn_never_returns :
    (∀ (E : Option GoError) (cmds : List PairCmd),
        splicedAndReturned (pairRun E cmds) = false)
  ∧ ((pairRun none [PairCmd.dialOk, PairCmd.copyToDstFinish,
        PairCmd.copyToSrcFinish, PairCmd.closerInFire, PairCmd.closerOutFire,
        PairCmd.mainReturn]).copyToDstDone = true
    ∧ (pairRun none [PairCmd.dialOk, PairCmd.copyToDstFinish,
        PairCmd.copyToSrcFinish, PairCmd.closerInFire, PairCmd.closerOutFire,
        PairCmd.mainReturn]).copyToSrcDone = true
    ∧ (pairRun none [PairCmd.dialOk, PairCmd.copyToDstFinish,
        PairCmd.copyToSrcFinish, PairCmd.closerInFire, PairCmd.closerOutFire,
        PairCmd.mainReturn]).inClosed = true
    ∧ (pairRun none [PairCmd.dialOk, PairCmd.copyToDstFinish,
        PairCmd.copyToSrcFinish, PairCmd.closerInFire, PairCmd.closerOutFire,
        PairCmd.mainReturn]).outClosed = true
    ∧ (pairRun none [PairCmd.dialOk, PairCmd.copyToDstFinish,
        PairCmd.copyToSrcFinish, PairCmd.closerInFire, PairCmd.closerOutFire,
        PairCmd.mainReturn]).returned = false) := by
  constructor
  · intro E cmds
    obtain ⟨_, _, h3, _⟩ := pairInv_run E cmds
    rcases hr : (pairRun E cmds).returned with _ | _
    · simp [splicedAndReturned, hr]
    · have hd := h3 hr
      simp [splicedAndReturned, hd, hr]
  · decide

/-- C5: the claim states first-write-wins semantics for the terminal error.
The code's guard is inverted: while `p.err` is nil an error is logged and
discarded, and once `p.err` is non-nil a later call overwrites it — the
opposite of first-write-wins, evaluated concretely in the last two
conjuncts. -/
theorem handleError_inverted_guard :
    (∀ e : Option GoError, (handleError none e).fst = none)
  ∧ (∀ (e1 : GoError) (e2 : Option GoError),
      (handleError (some e1) e2).fst = e2)
  ∧ (handleError (some "first") (some "second")).fst = some "second"
  ∧ (handleError none (some "boom")).fst = none := by
  exact ⟨handleError_from_nil, handleError_overwrites, by decide, by decide⟩

/-- C6: the address classifier is a pure total function: a string is
classified as a local-socket address exactly when it contains the
path-separator character `'/'`; in particular `"127.0.0.1:8080"` and
`"example:9000"` are network addresses while `"/tmp/sock"` and `"./sock"`
are local-socket addresses. -/
theorem classifier_slash_rule :
    (∀ s : List Char, isUnixSocket s = s.contains '/')
  ∧ isUnixSocket ("127.0.0.1:8080".toList) = false
  ∧ isUnixSocket ("example:9000".toList) = false
  ∧ isUnixSocket ("/tmp/sock".toList) = true
  ∧ isUnixSocket ("./sock".toList) = true := by
  exact ⟨isUnixSocket_eq_contains, by decide, by decide, by decide, by decide⟩

/-- C7 counterexample: the claim states that `proxy.run` returns when the
accept loop fails without waiting for in-flight pairs.  In the concrete
execution below, Accept has failed while one accepted pair is still running;
`run`'s `p.wg.Wait()` step is disabled (the WaitGroup also counts the pair's
`handleConn`), so `run` has not returned. -/
theorem run_blocked_with_pair_in_flight :
    (sessRun [SessCmd.acceptConn, SessCmd.acceptFail "closed",
      SessCmd.runHandleError, SessCmd.runReturn]).runReturned = none
  ∧ (sessRun [SessCmd.acceptConn, SessCmd.acceptFail "closed",
      SessCmd.runHandleError, SessCmd.runReturn]).acceptReturned
      = some (wrapAcceptErr "closed")
  ∧ (sessRun [SessCmd.acceptConn, SessCmd.acceptFail "closed",
      SessCmd.runHandleError, SessCmd.runReturn]).spawned = 1
  ∧ (sessRun [SessCmd.acceptConn, SessCmd.acceptFail "closed",
      SessCmd.runHandleError, SessCmd.runReturn]).done = 0 := by
  decide

/-- C7 amended: `proxy.run` blocks until the accept loop has terminated and
every spawned `handleConn` goroutine has completed: the session WaitGroup
counts the accept goroutine and each accepted connection's handler, and in
every execution in which `run` has returned, all spawned handlers had
finished and the accept loop had terminated. -/
theorem run_returns_only_after_pairs_done (cmds : List SessCmd)
    (v : Option GoError) (h : (sessRun cmds).runReturned = some v) :
    (sessRun cmds).done = (sessRun cmds).spawned
    ∧ (sessRun cmds).acceptDone = true := by
  obtain ⟨_, _, _, _, h5⟩ := sessInv_run cmds
  exact h5 (by simp [h])

/-- Witness for the amended C7 theorem on a concrete execution in which
`run` returns. -/
theorem run_returns_only_after_pairs_done_witness :
    (sessRun [SessCmd.acceptFail "closed", SessCmd.runReturn]).runReturned
      = some none
  ∧ ((sessRun [SessCmd.acceptFail "closed", SessCmd.runReturn]).done
      = (sessRun [SessCmd.acceptFail "closed", SessCmd.runReturn]).spawned
    ∧ (sessRun [SessCmd.acceptFail "closed", SessCmd.runReturn]).acceptDone
      = true) :=
  ⟨by decide, run_returns_only_after_pairs_done
    [SessCmd.acceptFail "closed", SessCmd.runReturn] none (by decide)⟩

/-- C8: failure to bind the source listener is startup-fatal: `run` exits via
`log.Fatalf` with status 1 after logging the error, and the proxy session
(and with it any `Accept` call) never starts. -/
theorem bind_failure_startup_fatal :
    ∀ (e : GoError) (cmds : List SessCmd),
      runMain (Except.error e) cmds
        = (StartResult.fatalExit 1 ("could not listen on the source: " ++ e),
           none) := by
  intro e cmds
  rfl

/-- C9: classifier edge cases: the empty string and slash-free strings that
are not of host:port form classify as network addresses, any string with a
slash anywhere — including host:port-shaped ones — classifies as a
local-socket address, and in general the classifier computes exactly the
presence of `'/'`. -/
theorem classifier_edge_cases :
    isUnixSocket [] = false
  ∧ isUnixSocket ("localhost".toList) = false
  ∧ isUnixSocket ("example.com/x:80".toList) = true
  ∧ (∀ s : List Char, isUnixSocket s = s.contains '/') := by
  exact ⟨by decide, by decide, by decide, isUnixSocket_eq_contains⟩

/-- C10: best-effort socket-file cleanup on exit (revision
`src/unnamed/part_001`): when `run` returns and the source address is a
unix-socket path, the teardown removes the source socket file, logging a
failure of the removal; for a network source address no removal is
attempted. -/
theorem unix_socket_cleanup_on_exit (addr : List Char)
    (removeRes : Except GoError Unit) :
    (isUnixSocket addr = true →
      CleanupAction.removeFile addr ∈ runCleanup addr removeRes)
  ∧ (isUnixSocket addr = false →
      runCleanup addr removeRes = [CleanupAction.closeListener])
  ∧ (∀ e : GoError, isUnixSocket addr = true →
      runCleanup addr (Except.error e)
        = [CleanupAction.closeListener, CleanupAction.removeFile addr,
           CleanupAction.logRemoveFailure addr]) := by
  refine ⟨?_, ?_, ?_⟩
  · intro h
    simp [runCleanup, h]
  · intro h
    simp [runCleanup, h]
  · intro e h
    simp [runCleanup, h]

/-- Witness for C10 at concrete inputs: a unix-socket source path with a
failing removal, and a network source address. -/
theorem unix_socket_cleanup_on_exit_witness :
    (CleanupAction.removeFile ("/tmp/sock".toList)
      ∈ runCleanup ("/tmp/sock".toList) (Except.error "permission denied"))
  ∧ runCleanup ("127.0.0.1:8080".toList) (Except.ok ())
      = [CleanupAction.closeListener]
  ∧ runCleanup ("/tmp/sock".toList) (Except.error "permission denied")
      = [CleanupAction.closeListener,
         CleanupAction.removeFile ("/tmp/sock".toList),
         CleanupAction.logRemoveFailure ("/tmp/sock".toList)] :=
  ⟨(unix_socket_cleanup_on_exit ("/tmp/sock".toList)
      (Except.error "permission denied")).1 (by decide),
   (unix_socket_cleanup_on_exit ("127.0.0.1:8080".toList)
      (Except.ok ())).2.1 (by decide),
   (unix_socket_cleanup_on_exit ("/tmp/sock".toList)
      (Except.error "permission denied")).2.2 "permission denied" (by decide)⟩

end SimpleTcpUnixRelay
